import Mathlib

/-!
Verification of the karlsson_refprot_normalization pipeline
(driver notebook `Models_refprot_normalization.ipynb`).

The observation table is modelled as a list of rows, each row a total
function from column names to optional rational values (`none` = missing /
NaN cell).  Each row carries its pandas index label, so that
`reset_index(drop=True)` is observable.  The functions module
`Fns_refprot_normalization.ipynb` is not part of the sources; its three
entry points (`create_biomarker_ratios`, `compare_biomarkers`,
`get_pvalues`) are modelled from the specification, as flagged in their
doc comments.
-/

namespace RefprotNorm

/-- A row of the observation table: column name to optional value
(`none` models a missing cell / NaN). -/
def Row : Type := String → Option ℚ

/-- A pandas-style data frame: a list of column names plus rows tagged
with their integer index label. -/
structure DataFrame where
  cols : List String
  rows : List (ℕ × Row)

/-- Number of rows. -/
def DataFrame.nRows (df : DataFrame) : ℕ := df.rows.length

/-- The index labels, in row order. -/
def DataFrame.indexLabels (df : DataFrame) : List ℕ := df.rows.map Prod.fst

/-- Keep only the rows whose data satisfies `p` (pandas boolean-mask
selection); index labels are kept. -/
def filterRows (df : DataFrame) (p : Row → Bool) : DataFrame :=
  ⟨df.cols, df.rows.filter (fun r => p r.2)⟩

/-- Pandas `reset_index(drop=True)`: relabel the rows `0,1,2,...` in order. -/
def resetIndex (df : DataFrame) : DataFrame :=
  ⟨df.cols, (df.rows.map Prod.snd).enum⟩

/-- Column projection `df[cs]`.  Values of dropped columns read as
missing in the projected rows. -/
def selectCols (df : DataFrame) (cs : List String) : DataFrame :=
  ⟨cs, df.rows.map (fun ir => (ir.1, fun c => if c ∈ cs then ir.2 c else none))⟩

/-- Pandas `dropna()`: keep only rows with every column of the frame present. -/
def dropna (df : DataFrame) : DataFrame :=
  filterRows df (fun r => df.cols.all (fun c => (r c).isSome))

/-- Driver, maximize-availability mode
(`df[df[outcome].notnull()].reset_index(drop=True)`). -/
def subsetOutcome (df : DataFrame) (outcome : String) : DataFrame :=
  resetIndex (filterRows df (fun r => (r outcome).isSome))

/-- Driver, common-subset mode
(`df[cols].dropna().reset_index(drop=True)`). -/
def subsetCommon (df : DataFrame) (cs : List String) : DataFrame :=
  resetIndex (dropna (selectCols df cs))

/-- Loading cell of the driver: keep rows whose `Visit` column equals 0.  A frame
without a `Visit` column raises a KeyError (fatal); otherwise only rows
whose `Visit` value equals 0 are retained (a missing `Visit` value
compares unequal to 0, as NaN does in pandas). -/
def loadStep (df : DataFrame) : Except String DataFrame :=
  if "Visit" ∈ df.cols then
    Except.ok (filterRows df (fun r => decide (r "Visit" = some 0)))
  else
    Except.error "KeyError: Visit"

/-- Positional row access, as used by bootstrap resampling. -/
def rowAt (df : DataFrame) (i : ℕ) : Option Row :=
  (df.rows.get? i).map Prod.snd

/-- A two-row table with a `Visit` column: row 0 is a baseline visit,
row 1 is not. -/
def dfVisitW : DataFrame :=
  ⟨["Visit"], [(0, fun _ => some 0), (1, fun _ => some 1)]⟩

/-- A table without a `Visit` column. -/
def dfNoVisit : DataFrame := ⟨["X"], []⟩

/-- Row-wise ratio value.  Modelled from the spec: the functions module is
not among the sources; per the data model and the ratio-construction
contract, the ratio is biomarker divided by reference protein, missing
whenever the reference value is missing or non-positive, with a missing
biomarker value propagating as missing. -/
def ratioValue (bio rp : Option ℚ) : Option ℚ :=
  match rp with
  | none => none
  | some v => if v ≤ 0 then none else bio.map (fun x => x / v)

/-- Name of the derived ratio column for biomarker `b` over reference
protein `rp`. -/
def ratioColName (b rp : String) : String := b ++ "_over_" ++ rp

/-- Modelled from the spec: `fns.create_biomarker_ratios` (functions
module absent from the sources) appends, to the table, one ratio column
per listed biomarker and returns the table together with the ordered list
of the new column names. -/
def create_biomarker_ratios (df : DataFrame) (bios : List String) (rp : String) :
    DataFrame × List String :=
  let names := bios.map (fun b => ratioColName b rp)
  (⟨df.cols ++ names,
    df.rows.map (fun ir =>
      (ir.1, fun c =>
        match bios.find? (fun b => ratioColName b rp == c) with
        | some b => ratioValue (ir.2 b) (ir.2 rp)
        | none => ir.2 c))⟩,
   names)

/-- Concrete row: biomarker 6, reference 2. -/
def rowW0 : Row := fun c => if c = "B" then some 6 else if c = "R" then some 2 else none

/-- Concrete row: biomarker 5, reference 0 (non-positive). -/
def rowW1 : Row := fun c => if c = "B" then some 5 else if c = "R" then some 0 else none

/-- Row 0 after ratio construction over biomarker list `["B"]`. -/
def rowW0r : Row := fun c =>
  match ["B"].find? (fun b => ratioColName b "R" == c) with
  | some b => ratioValue (rowW0 b) (rowW0 "R")
  | none => rowW0 c

/-- Row 1 after ratio construction over biomarker list `["B"]`. -/
def rowW1r : Row := fun c =>
  match ["B"].find? (fun b => ratioColName b "R" == c) with
  | some b => ratioValue (rowW1 b) (rowW1 "R")
  | none => rowW1 c

/-- Two-row table exercising both the positive-reference and the
zero-reference cases. -/
def dfRatioW : DataFrame := ⟨["B", "R"], [(0, rowW0), (1, rowW1)]⟩

/-- One bootstrap fit: the resample index list it was fit on, and the
resulting coefficient of determination (`none` models NaN / undefined). -/
structure FitRec where
  idxUsed : List ℕ
  r2 : Option ℚ

/-- Sum of a list of rationals. -/
def qSum (l : List ℚ) : ℚ := l.foldr (· + ·) 0

/-- Scaled sum of squares of the predictor: `n·Σx² − (Σx)²`. -/
def sxx (pts : List (ℚ × ℚ)) : ℚ :=
  (pts.length : ℚ) * qSum (pts.map (fun p => p.1 * p.1))
    - qSum (pts.map Prod.fst) * qSum (pts.map Prod.fst)

/-- Scaled sum of squares of the outcome: `n·Σy² − (Σy)²`. -/
def syy (pts : List (ℚ × ℚ)) : ℚ :=
  (pts.length : ℚ) * qSum (pts.map (fun p => p.2 * p.2))
    - qSum (pts.map Prod.snd) * qSum (pts.map Prod.snd)

/-- Scaled sum of cross products: `n·Σxy − Σx·Σy`. -/
def sxy (pts : List (ℚ × ℚ)) : ℚ :=
  (pts.length : ℚ) * qSum (pts.map (fun p => p.1 * p.2))
    - qSum (pts.map Prod.fst) * qSum (pts.map Prod.snd)

/-- Classical univariate OLS coefficient of determination,
`R² = (Sxy)² / (Sxx·Syy)`; undefined (NaN, modelled as `none`) when the
predictor or the outcome has zero variance in the sample. -/
def olsR2 (pts : List (ℚ × ℚ)) : Option ℚ :=
  if sxx pts = 0 ∨ syy pts = 0 then none
  else some (sxy pts ^ 2 / (sxx pts * syy pts))

/-- The (predictor, outcome) pairs read off the frame at the given row
positions; rows with a missing operand contribute nothing. -/
def pointsOf (df : DataFrame) (x y : String) (idx : List ℕ) : List (ℚ × ℚ) :=
  (idx.filterMap (rowAt df)).filterMap (fun r =>
    match r x, r y with
    | some a, some b => some (a, b)
    | _, _ => none)

/-- Fit one univariate regression on the rows at `idx`, recording the
index list used and the resulting R². -/
def fitOn (df : DataFrame) (x y : String) (idx : List ℕ) : FitRec :=
  ⟨idx, olsR2 (pointsOf df x y idx)⟩

/-- Per-biomarker output of the comparison engine. -/
structure BioRes where
  bio : String
  nbio : String
  r2_full_raw : Option ℚ
  r2_full_norm : Option ℚ
  boot_raw : List FitRec
  boot_norm : List FitRec

/-- One result set: everything produced for one (panel, outcome) pair. -/
structure ResultSet where
  outcome : String
  biomarkers : List String
  refprot : String
  entries : List BioRes
  pvals : List ℚ
  qvals : List ℚ

/-- Modelled from the spec: `fns.compare_biomarkers` (functions module
absent from the sources).  For each biomarker it fits the raw and the
ratio-normalized variant on the full frame, then runs `n_iter` bootstrap
iterations; in iteration `i` of biomarker `k` one index list
`sample k i` is drawn and reused for both the raw and the normalized
refit of that iteration. -/
def compare_biomarkers (df : DataFrame) (bios nbios : List String)
    (rp outcome : String) (n_iter : ℕ) (sample : ℕ → ℕ → List ℕ) : ResultSet :=
  { outcome := outcome
    biomarkers := bios
    refprot := rp
    entries := (bios.zip nbios).enum.map (fun kp =>
      { bio := kp.2.1
        nbio := kp.2.2
        r2_full_raw := olsR2 (pointsOf df kp.2.1 outcome (List.range df.nRows))
        r2_full_norm := olsR2 (pointsOf df kp.2.2 outcome (List.range df.nRows))
        boot_raw := (List.range n_iter).map
          (fun i => fitOn df kp.2.1 outcome (sample kp.1 i))
        boot_norm := (List.range n_iter).map
          (fun i => fitOn df kp.2.2 outcome (sample kp.1 i)) })
    pvals := []
    qvals := [] }

/-- A frame with two identical rows: the predictor `B` is constant, so a
resample of both rows is degenerate. -/
def dfConstW : DataFrame := ⟨["B", "R"], [(0, rowW0), (1, rowW0)]⟩

/-- The recorded bootstrap R² sequence of a fit list. -/
def bootR2s (l : List FitRec) : List (Option ℚ) := l.map FitRec.r2

/-- The paired bootstrap values with both sides finite; `none` entries
(NaN-like) are excluded from both variants jointly. -/
def finitePairs (raw norm : List (Option ℚ)) : List (ℚ × ℚ) :=
  (raw.zip norm).filterMap (fun p =>
    match p.1, p.2 with
    | some a, some b => some (a, b)
    | _, _ => none)

/-- Modelled from the spec: empirical bootstrap p-value
`(1 + #{iterations with normalized R² ≤ raw R²}) / (effective n_iter + 1)`,
non-finite iterations excluded from numerator count and denominator. -/
def empiricalP (raw norm : List (Option ℚ)) : ℚ :=
  (1 + (((finitePairs raw norm).filter (fun p => p.2 ≤ p.1)).length : ℚ)) /
    (((finitePairs raw norm).length : ℚ) + 1)

/-- Number of p-values in `ps` that are ≤ `v`. -/
def countLE (ps : List ℚ) (v : ℚ) : ℕ := (ps.filter (fun u => u ≤ v)).length

/-- Modelled from the spec: Benjamini–Hochberg step-up adjusted p-value of
`p` within the family `ps`, in the standard sort-free closed form
`min(1, min over v in ps with v ≥ p of |ps|·v / #(u in ps with u ≤ v))`,
which agrees with the classical sorted suffix-minimum formulation. -/
def bhAdjust (ps : List ℚ) (p : ℚ) : ℚ :=
  ((ps.filter (fun v => p ≤ v)).map
    (fun v => (ps.length : ℚ) * v / (countLE ps v : ℚ))).foldr min 1

/-- Modelled from the spec: per-result-set p-value computation — one raw
p-value per biomarker from the paired bootstrap sequences, then BH
adjustment across the family of that result set. -/
def addPvalues (rs : ResultSet) : ResultSet :=
  let ps := rs.entries.map (fun e => empiricalP (bootR2s e.boot_raw) (bootR2s e.boot_norm))
  { rs with pvals := ps, qvals := ps.map (bhAdjust ps) }

/-- Modelled from the spec: `fns.get_pvalues` (functions module absent
from the sources) computes raw and FDR-adjusted p-values for each result
set in the list, preserving order. -/
def get_pvalues (results : List ResultSet) (nbios : List String) (n_iter : ℕ) :
    List ResultSet :=
  results.map addPvalues

/-- A one-entry result set: one finite pair (raw 1, normalized 0) and one
excluded pair (raw NaN). -/
def entryW : BioRes :=
  ⟨"B", "Bn", none, none,
   [⟨[0], some 1⟩, ⟨[1], none⟩],
   [⟨[0], some 0⟩, ⟨[1], some 1⟩]⟩

/-- A concrete result set used by the p-value witnesses. -/
def rsW : ResultSet := ⟨"Y", ["B"], "R", [entryW], [], []⟩

/-- Configuration of one driver run: input frame, panels, reference
proteins, the three outcome columns, iteration count, subsetting mode and
the resample-index source. -/
structure RunConfig where
  df0 : DataFrame
  csfBios : List String
  plasmaBios : List String
  csfRef : String
  plasmaRef : String
  tauBraakI_IV : String
  tauBraakV_VI : String
  amyloidPet : String
  n_iter : ℕ
  subset : Bool
  sample : ℕ → ℕ → List ℕ

/-- The driver notebook, sections 1–2: build ratios, build per-outcome
frames, run the six comparisons (CSF × three outcomes, then plasma ×
three outcomes), compute p-values per panel, concatenate, and serialize
the concatenation exactly once as the final action.  Returns the final
result list together with the list of serialized writes in order. -/
def driverRun (cfg : RunConfig) : List ResultSet × List (List ResultSet) :=
  let p1 := create_biomarker_ratios cfg.df0 cfg.csfBios cfg.csfRef
  let p2 := create_biomarker_ratios p1.1 cfg.plasmaBios cfg.plasmaRef
  let df := p2.1
  let csfNorm := p1.2
  let plasmaNorm := p2.2
  let dfT1 := subsetOutcome df cfg.tauBraakI_IV
  let dfT2 := subsetOutcome df cfg.tauBraakV_VI
  let dfA := subsetOutcome df cfg.amyloidPet
  let dfCsf1 := if cfg.subset then
      subsetCommon df (cfg.csfBios ++ csfNorm ++ [cfg.csfRef, cfg.tauBraakI_IV])
    else dfT1
  let dfCsf2 := if cfg.subset then
      subsetCommon df (cfg.csfBios ++ csfNorm ++ [cfg.csfRef, cfg.tauBraakV_VI])
    else dfT2
  let dfCsf3 := if cfg.subset then
      subsetCommon df (cfg.csfBios ++ csfNorm ++ [cfg.csfRef, cfg.amyloidPet])
    else dfA
  let dfPl1 := if cfg.subset then
      subsetCommon df (cfg.plasmaBios ++ plasmaNorm ++ [cfg.plasmaRef, cfg.tauBraakI_IV])
    else dfT1
  let dfPl2 := if cfg.subset then
      subsetCommon df (cfg.plasmaBios ++ plasmaNorm ++ [cfg.plasmaRef, cfg.tauBraakV_VI])
    else dfT2
  let dfPl3 := if cfg.subset then
      subsetCommon df (cfg.plasmaBios ++ plasmaNorm ++ [cfg.plasmaRef, cfg.amyloidPet])
    else dfA
  let r1 := compare_biomarkers dfCsf1 cfg.csfBios csfNorm cfg.csfRef
    cfg.tauBraakI_IV cfg.n_iter cfg.sample
  let r2 := compare_biomarkers dfCsf2 cfg.csfBios csfNorm cfg.csfRef
    cfg.tauBraakV_VI cfg.n_iter cfg.sample
  let r3 := compare_biomarkers dfCsf3 cfg.csfBios csfNorm cfg.csfRef
    cfg.amyloidPet cfg.n_iter cfg.sample
  let r4 := compare_biomarkers dfPl1 cfg.plasmaBios plasmaNorm cfg.plasmaRef
    cfg.tauBraakI_IV cfg.n_iter cfg.sample
  let r5 := compare_biomarkers dfPl2 cfg.plasmaBios plasmaNorm cfg.plasmaRef
    cfg.tauBraakV_VI cfg.n_iter cfg.sample
  let r6 := compare_biomarkers dfPl3 cfg.plasmaBios plasmaNorm cfg.plasmaRef
    cfg.amyloidPet cfg.n_iter cfg.sample
  let all_res_csf := get_pvalues [r1, r2, r3] csfNorm cfg.n_iter
  let all_res_plasma := get_pvalues [r4, r5, r6] plasmaNorm cfg.n_iter
  let results_all_lin := all_res_csf ++ all_res_plasma
  (results_all_lin, [results_all_lin])

/-- Tokens of a Python list literal over string elements. -/
inductive PyTok where
  | lbrack
  | rbrack
  | comma
  | strLit (s : String)
deriving DecidableEq

/-- One step of the list-literal tokenizer.  State: contents of a string
literal being scanned (if inside one), and the reversed token list so far
(`none` = lexical error). -/
def pyTokStep (st : Option (List Char) × Option (List PyTok)) (c : Char) :
    Option (List Char) × Option (List PyTok) :=
  match st with
  | (some buf, toks) =>
      if c = '\x27' then
        (none, toks.map (fun ts => PyTok.strLit (String.mk buf.reverse) :: ts))
      else (some (c :: buf), toks)
  | (none, none) => (none, none)
  | (none, some ts) =>
      if c = ' ' ∨ c = '\n' ∨ c = '\t' ∨ c = '\r' then (none, some ts)
      else if c = '[' then (none, some (PyTok.lbrack :: ts))
      else if c = ']' then (none, some (PyTok.rbrack :: ts))
      else if c = ',' then (none, some (PyTok.comma :: ts))
      else if c = '\x27' then (some [], some ts)
      else (none, none)

/-- Tokenize a Python list literal of single-quoted strings; `none` on a
lexical error or an unterminated string. -/
def pyTokens (s : String) : Option (List PyTok) :=
  match s.data.foldl pyTokStep (none, some []) with
  | (none, some ts) => some ts.reverse
  | _ => none

/-- Recognizer for the body of a Python list literal after the opening
bracket.  State 0: expecting a first item or the closing bracket; state
1: after an item; state 2: after a separating comma (trailing comma
allowed).  Two consecutive commas are rejected in state 2. -/
def pyListBody : ℕ → List PyTok → Bool
  | 0, [PyTok.rbrack] => true
  | 0, PyTok.strLit _ :: rest => pyListBody 1 rest
  | 1, [PyTok.rbrack] => true
  | 1, PyTok.comma :: rest => pyListBody 2 rest
  | 2, [PyTok.rbrack] => true
  | 2, PyTok.strLit _ :: rest => pyListBody 1 rest
  | _, _ => false

/-- A string is a syntactically valid Python list literal of strings. -/
def pyListValid (s : String) : Bool :=
  match pyTokens s with
  | some (PyTok.lbrack :: rest) => pyListBody 0 rest
  | _ => false

/-- The `csf_biomarkers` list literal exactly as it appears in the
biomarker-configuration cell of the driver notebook (note the duplicated
comma after the second element). -/
def csfBiomarkersSrc : String :=
  "[\x27CSF_ptau217_Lilly\x27,\n                  \x27CSF_ptau181_Lilly\x27,,\n                  \x27CSF_MTBRtau243_WashU\x27,\n                  \x27CSF_ptau205_WashU\x27,\n                  \x27CSF_Ab42_Elecsys\x27,\n                  \x27CSF_SNAP25_UGOT\x27,\n                  \x27CSF_Neurogranin_NTK\x27\n                 ]"

/-- The `plasma_biomarkers` list literal exactly as it appears in the
same cell. -/
def plasmaBiomarkersSrc : String :=
  "[\x27Plasma_ptau217_Lilly\x27,\n                     \x27Plasma_ptau181_Lilly\x27,\n                     \x27Plasma_ptau205_WashU\x27,\n                     \x27Plasma_eMTBRtau243_WashU\x27,\n                     \x27Plasma_Ab42_WashU\x27]"

/-- Observable pipeline stages of the driver notebook. -/
inductive PipelineEffect where
  | ratioConstruction
  | modelFitting
  | pvalueComputation
  | serialization
deriving DecidableEq

/-- One notebook cell: whether its source compiles (a cell with a syntax
error executes none of its statements) and the pipeline stages its
statements perform. -/
structure NotebookCell where
  parses : Bool
  effects : List PipelineEffect

/-- Sequential notebook execution: cells run in order and execution stops
at the first cell that fails to compile, which contributes no effects. -/
def executedEffects (cells : List NotebookCell) : List PipelineEffect :=
  (cells.takeWhile (fun c => c.parses)).flatMap (fun c => c.effects)

/-- The cells of the driver notebook in order: imports, data loading, the
biomarker-configuration cell (which also performs ratio construction and
builds the per-outcome frames), the `n_iter` cell, the `subset` cell, the
model-fitting cell, and the p-value/serialization cell.  The
configuration cell compiles only if both biomarker list literals are
valid Python. -/
def modelsNotebook : List NotebookCell :=
  [⟨true, []⟩,
   ⟨true, []⟩,
   ⟨pyListValid csfBiomarkersSrc && pyListValid plasmaBiomarkersSrc,
    [PipelineEffect.ratioConstruction]⟩,
   ⟨true, []⟩,
   ⟨true, []⟩,
   ⟨true, [PipelineEffect.modelFitting]⟩,
   ⟨true, [PipelineEffect.pvalueComputation, PipelineEffect.serialization]⟩]

/-- Helper: filtering with a pointwise weaker predicate keeps at least as
many elements. -/
theorem length_filter_mono {α : Type} (l : List α) (p q : α → Bool)
    (h : ∀ a, p a = true → q a = true) :
    (l.filter p).length ≤ (l.filter q).length := by
  induction l with
  | nil => simp
  | cons a t ih =>
      by_cases hp : p a = true
      · have hq := h a hp
        simp [List.filter_cons, hp, hq, Nat.succ_le_succ ih]
      · have hp' : p a = false := by
          cases hpa : p a with
          | true => exact absurd hpa hp
          | false => rfl
        cases hq : q a with
        | true =>
            simp [List.filter_cons, hp', hq]
            exact le_trans ih (Nat.le_succ _)
        | false =>
            simp [List.filter_cons, hp', hq, ih]

theorem subsetCommon_nRows (df : DataFrame) (cs : List String) :
    (subsetCommon df cs).nRows
      = (df.rows.filter (fun r => cs.all (fun c => (r.2 c).isSome))).length := by
  unfold subsetCommon resetIndex dropna filterRows selectCols DataFrame.nRows
  simp only [List.enum_length, List.length_map, List.filter_map]
  congr 1
  apply List.filter_congr
  intro ir _
  simp only [Function.comp]
  rw [Bool.eq_iff_iff, List.all_eq_true, List.all_eq_true]
  constructor
  · intro h c hc
    have := h c hc
    rwa [if_pos hc] at this
  · intro h c hc
    rw [if_pos hc]
    exact h c hc

theorem subsetOutcome_nRows (df : DataFrame) (o : String) :
    (subsetOutcome df o).nRows
      = (df.rows.filter (fun r => (r.2 o).isSome)).length := by
  unfold subsetOutcome resetIndex filterRows DataFrame.nRows
  simp [List.enum_length]

/-- C7: for every input table and every outcome, the common-subset mode
(all listed columns present) selects at most as many rows as the
maximize-availability mode (only the outcome present), provided the
outcome column is among the listed columns — as it is at every call site
of the driver. -/
theorem common_subset_le_max_availability
    (df : DataFrame) (cs : List String) (o : String) (ho : o ∈ cs) :
    (subsetCommon df cs).nRows ≤ (subsetOutcome df o).nRows := by
  rw [subsetCommon_nRows, subsetOutcome_nRows]
  apply length_filter_mono
  intro r hr
  rw [List.all_eq_true] at hr
  exact hr o ho

/-- C8: in both subsetting modes the frame handed to the comparison stage
has its index reset to the contiguous range `0, ..., nRows-1`. -/
theorem subset_modes_reset_index (df : DataFrame) (o : String) (cs : List String) :
    (subsetOutcome df o).indexLabels = List.range (subsetOutcome df o).nRows ∧
    (subsetCommon df cs).indexLabels = List.range (subsetCommon df cs).nRows := by
  constructor <;>
    simp [subsetOutcome, subsetCommon, resetIndex, DataFrame.indexLabels,
      DataFrame.nRows, List.enum_map_fst, List.enum_length]

theorem mem_filterRows {df : DataFrame} {p : Row → Bool} {r : ℕ × Row}
    (h : r ∈ (filterRows df p).rows) : r ∈ df.rows ∧ p r.2 = true := by
  unfold filterRows at h
  simpa using List.mem_filter.mp h

theorem mem_resetIndex_rows {df : DataFrame} {r : ℕ × Row}
    (h : r ∈ (resetIndex df).rows) : r.2 ∈ df.rows.map Prod.snd := by
  unfold resetIndex at h
  rw [← List.enum_map_snd (df.rows.map Prod.snd)]
  exact List.mem_map_of_mem Prod.snd h

/-- C10: the loading cell keeps only `Visit == 0` rows, so every
downstream per-outcome subset (either mode) and every positionally
resampled row carries only `Visit == 0` data; a table without a `Visit`
column fails fatally at the loading cell. -/
theorem visit_baseline_filter (df : DataFrame) :
    ("Visit" ∉ df.cols → loadStep df = Except.error "KeyError: Visit") ∧
    (∀ df', loadStep df = Except.ok df' →
      (∀ r ∈ df'.rows, r.2 "Visit" = some 0) ∧
      (∀ o : String, ∀ r ∈ (subsetOutcome df' o).rows, r.2 "Visit" = some 0) ∧
      (∀ (o : String) (i : ℕ) (rw : Row),
        rowAt (subsetOutcome df' o) i = some rw → rw "Visit" = some 0) ∧
      (∀ cs : List String, ∀ r ∈ (subsetCommon df' cs).rows,
        ∃ r0 ∈ df'.rows,
          r.2 = (fun c => if c ∈ cs then r0.2 c else none) ∧
          r0.2 "Visit" = some 0)) := by
  constructor
  · intro h
    simp [loadStep, h]
  · intro df' hok
    by_cases hv : "Visit" ∈ df.cols
    · rw [loadStep, if_pos hv] at hok
      have hdf' : df' = filterRows df (fun r => decide (r "Visit" = some 0)) :=
        (Except.ok.injEq _ _ ▸ hok.symm :)
      subst hdf'
      have base : ∀ r ∈ (filterRows df (fun r => decide (r "Visit" = some 0))).rows,
          r.2 "Visit" = some 0 := by
        intro r hr
        have := (mem_filterRows hr).2
        exact of_decide_eq_true this
      refine ⟨base, ?_, ?_, ?_⟩
      · intro o r hr
        have h2 := mem_resetIndex_rows hr
        obtain ⟨ir, hir, hsnd⟩ := List.mem_map.mp h2
        have := base ir (mem_filterRows hir).1
        rw [← hsnd]
        exact this
      · intro o i rw hrow
        unfold rowAt at hrow
        obtain ⟨pr, hpr, hsnd⟩ := Option.map_eq_some'.mp hrow
        have hmem : pr ∈ (subsetOutcome _ o).rows := List.get?_mem hpr
        have h2 := mem_resetIndex_rows hmem
        obtain ⟨ir, hir, hsnd2⟩ := List.mem_map.mp h2
        have := base ir (mem_filterRows hir).1
        rw [← hsnd, ← hsnd2]
        exact this
      · intro cs r hr
        have h2 := mem_resetIndex_rows hr
        obtain ⟨ir, hir, hsnd⟩ := List.mem_map.mp h2
        have hir2 := (mem_filterRows hir).1
        unfold selectCols at hir2
        obtain ⟨ir0, hir0, hmk⟩ := List.mem_map.mp hir2
        refine ⟨ir0, hir0, ?_, base ir0 hir0⟩
        rw [← hsnd, ← hmk]
    · rw [loadStep, if_neg hv] at hok
      exact absurd hok (by simp)

theorem visit_baseline_filter_witness :
    loadStep dfNoVisit = Except.error "KeyError: Visit" ∧
    (fun _ => (some 0 : Option ℚ)) "Visit" = some 0 :=
  ⟨(visit_baseline_filter dfNoVisit).1 (by decide),
   ((visit_baseline_filter dfVisitW).2
      (filterRows dfVisitW (fun r => decide (r "Visit" = some 0)))
      (by simp [loadStep, dfVisitW])).1
      (0, fun _ => some 0)
      (by simp [filterRows, dfVisitW, List.filter])⟩

theorem ratioColName_inj {b₁ b₂ rp : String}
    (h : ratioColName b₁ rp = ratioColName b₂ rp) : b₁ = b₂ := by
  unfold ratioColName at h
  have hd := congrArg String.data h
  simp only [String.data_append] at hd
  exact String.ext (List.append_cancel_right (List.append_cancel_right hd))

theorem find?_eq_of_unique {α : Type} {l : List α} {p : α → Bool} {b : α}
    (hb : b ∈ l) (hu : ∀ x ∈ l, p x = true ↔ x = b) : l.find? p = some b := by
  induction l with
  | nil => cases hb
  | cons a t ih =>
      cases hpa : p a with
      | true =>
          rw [List.find?_cons_of_pos _ hpa]
          exact congrArg some ((hu a (List.mem_cons_self a t)).mp hpa)
      | false =>
          rw [List.find?_cons_of_neg _ (by simp [hpa])]
          have hbt : b ∈ t := by
            cases List.mem_cons.mp hb with
            | inl he =>
                exfalso
                have hq : p b = true := (hu b hb).mpr rfl
                rw [he] at hq
                simp [hq] at hpa
            | inr ht => exact ht
          exact ih hbt (fun x hx => hu x (List.mem_cons_of_mem a hx))

/-- C2: ratio construction appends one new column per biomarker whose row
value is missing when the reference value is missing or non-positive and
is the exact quotient otherwise; index labels and all pre-existing
columns (those not shadowed by a new name) are unchanged, and the ordered
list of new names is returned. -/
theorem create_biomarker_ratios_spec (df : DataFrame) (bios : List String) (rp : String) :
    (create_biomarker_ratios df bios rp).2 = bios.map (fun b => ratioColName b rp) ∧
    (create_biomarker_ratios df bios rp).1.indexLabels = df.indexLabels ∧
    (∀ k ir ir', df.rows.get? k = some ir →
      (create_biomarker_ratios df bios rp).1.rows.get? k = some ir' →
      ir'.1 = ir.1 ∧
      (∀ c, c ∉ (create_biomarker_ratios df bios rp).2 → ir'.2 c = ir.2 c) ∧
      (∀ b ∈ bios, ir'.2 (ratioColName b rp) = ratioValue (ir.2 b) (ir.2 rp)) ∧
      ((ir.2 rp = none ∨ ∃ v, ir.2 rp = some v ∧ v ≤ 0) →
        ∀ b ∈ bios, ir'.2 (ratioColName b rp) = none) ∧
      (∀ v x b, ir.2 rp = some v → 0 < v → b ∈ bios → ir.2 b = some x →
        ir'.2 (ratioColName b rp) = some (x / v))) := by
  refine ⟨rfl, by simp [create_biomarker_ratios, DataFrame.indexLabels], ?_⟩
  intro k ir ir' hk hk'
  have hmap : (create_biomarker_ratios df bios rp).1.rows.get? k
      = (df.rows.get? k).map (fun ir =>
          ((ir.1 : ℕ), fun c =>
            match bios.find? (fun b => ratioColName b rp == c) with
            | some b => ratioValue (ir.2 b) (ir.2 rp)
            | none => ir.2 c)) := by
    unfold create_biomarker_ratios
    exact List.get?_map _ _ _
  rw [hmap, hk, Option.map_some'] at hk'
  have hir' := (Option.some.injEq _ _ ▸ hk' :).symm
  subst hir'
  have hfind : ∀ b ∈ bios,
      bios.find? (fun b' => ratioColName b' rp == ratioColName b rp) = some b := by
    intro b hb
    apply find?_eq_of_unique hb
    intro x _
    rw [beq_iff_eq]
    exact ⟨fun h => ratioColName_inj h, fun h => by rw [h]⟩
  have hvalue : ∀ b ∈ bios,
      (fun c =>
        match bios.find? (fun b' => ratioColName b' rp == c) with
        | some b' => ratioValue (ir.2 b') (ir.2 rp)
        | none => ir.2 c) (ratioColName b rp) = ratioValue (ir.2 b) (ir.2 rp) := by
    intro b hb
    simp only [hfind b hb]
  refine ⟨rfl, ?_, hvalue, ?_, ?_⟩
  · intro c hc
    have hnone : bios.find? (fun b => ratioColName b rp == c) = none := by
      rw [List.find?_eq_none]
      intro b hb hbc
      exact hc (List.mem_map.mpr ⟨b, hb, beq_iff_eq.mp hbc⟩)
    simp only [hnone]
  · intro hrp b hb
    refine Eq.trans (hvalue b hb) ?_
    cases hrp with
    | inl hn =>
        rw [hn]
        simp [ratioValue]
    | inr hv =>
        obtain ⟨v, hv1, hv2⟩ := hv
        rw [hv1]
        simp [ratioValue, hv2]
  · intro v x b hv hvpos hb hx
    refine Eq.trans (hvalue b hb) ?_
    rw [hv, hx]
    simp [ratioValue, not_le.mpr hvpos]

theorem create_biomarker_ratios_spec_witness :
    rowW0r (ratioColName "B" "R") = some (6 / 2) ∧
    rowW1r (ratioColName "B" "R") = none ∧
    rowW0r "B" = rowW0 "B" :=
  ⟨((create_biomarker_ratios_spec dfRatioW ["B"] "R").2.2 0 (0, rowW0) (0, rowW0r)
      rfl rfl).2.2.2.2 2 6 "B" rfl (by norm_num) (by decide) rfl,
   ((create_biomarker_ratios_spec dfRatioW ["B"] "R").2.2 1 (1, rowW1) (1, rowW1r)
      rfl rfl).2.2.2.1 (Or.inr ⟨0, rfl, le_refl 0⟩) "B" (by decide),
   ((create_biomarker_ratios_spec dfRatioW ["B"] "R").2.2 0 (0, rowW0) (0, rowW0r)
      rfl rfl).2.1 "B" (by decide)⟩

/-- Index list recorded at bootstrap position `i` of a mapped fit list. -/
theorem boot_idx (df : DataFrame) (b outcome : String) (n_iter : ℕ)
    (s : ℕ → List ℕ) (i : ℕ) :
    ((((List.range n_iter).map (fun j => fitOn df b outcome (s j))).get? i).map
      FitRec.idxUsed) = ((List.range n_iter).get? i).map s := by
  rw [List.get?_map]
  cases (List.range n_iter).get? i <;> rfl

/-- C1: within every bootstrap iteration of every biomarker, the index
list recorded by the raw-variant fit is identical to the index list
recorded by the normalized-variant fit (the pairing invariant), at every
iteration position. -/
theorem bootstrap_pairing (df : DataFrame) (bios nbios : List String)
    (rp outcome : String) (n_iter : ℕ) (sample : ℕ → ℕ → List ℕ) :
    ∀ k i : ℕ,
      (((compare_biomarkers df bios nbios rp outcome n_iter sample).entries.get? k).map
        (fun e => (e.boot_raw.get? i).map FitRec.idxUsed))
      = (((compare_biomarkers df bios nbios rp outcome n_iter sample).entries.get? k).map
        (fun e => (e.boot_norm.get? i).map FitRec.idxUsed)) := by
  intro k i
  rw [show (compare_biomarkers df bios nbios rp outcome n_iter sample).entries
      = (bios.zip nbios).enum.map (fun kp =>
        { bio := kp.2.1
          nbio := kp.2.2
          r2_full_raw := olsR2 (pointsOf df kp.2.1 outcome (List.range df.nRows))
          r2_full_norm := olsR2 (pointsOf df kp.2.2 outcome (List.range df.nRows))
          boot_raw := (List.range n_iter).map (fun j => fitOn df kp.2.1 outcome (sample kp.1 j))
          boot_norm := (List.range n_iter).map (fun j => fitOn df kp.2.2 outcome (sample kp.1 j)) : BioRes }) from rfl]
  rw [List.get?_map]
  cases (bios.zip nbios).enum.get? k with
  | none => rfl
  | some kp =>
      rw [Option.map_some', Option.map_some']
      exact congrArg some ((boot_idx df kp.2.1 outcome n_iter (sample kp.1) i).trans
        (boot_idx df kp.2.2 outcome n_iter (sample kp.1) i).symm)

/-- C9: the bootstrap engine is total — every entry records exactly
`n_iter` raw and `n_iter` normalized R² values, one per iteration — and a
degenerate resample (zero variance in predictor or outcome) yields a
recorded `none` (NaN-like) R² instead of aborting. -/
theorem degenerate_resample_recorded (df : DataFrame) (bios nbios : List String)
    (rp outcome : String) (n_iter : ℕ) (sample : ℕ → ℕ → List ℕ) :
    (∀ k : ℕ,
      (((compare_biomarkers df bios nbios rp outcome n_iter sample).entries.get? k).map
        (fun e => (e.boot_raw.length, e.boot_norm.length)))
      = (((compare_biomarkers df bios nbios rp outcome n_iter sample).entries.get? k).map
        (fun _ => (n_iter, n_iter)))) ∧
    (∀ (x y : String) (idx : List ℕ),
      sxx (pointsOf df x y idx) = 0 ∨ syy (pointsOf df x y idx) = 0 →
      (fitOn df x y idx).r2 = none) := by
  constructor
  · intro k
    rw [show (compare_biomarkers df bios nbios rp outcome n_iter sample).entries
        = (bios.zip nbios).enum.map (fun kp =>
          { bio := kp.2.1
            nbio := kp.2.2
            r2_full_raw := olsR2 (pointsOf df kp.2.1 outcome (List.range df.nRows))
            r2_full_norm := olsR2 (pointsOf df kp.2.2 outcome (List.range df.nRows))
            boot_raw := (List.range n_iter).map (fun j => fitOn df kp.2.1 outcome (sample kp.1 j))
            boot_norm := (List.range n_iter).map (fun j => fitOn df kp.2.2 outcome (sample kp.1 j)) : BioRes }) from rfl]
    rw [List.get?_map]
    cases (bios.zip nbios).enum.get? k with
    | none => rfl
    | some kp =>
        rw [Option.map_some', Option.map_some']
        exact congrArg some (by simp)
  · intro x y idx hdeg
    unfold fitOn olsR2
    simp [hdeg]

theorem degenerate_resample_recorded_witness :
    (fitOn dfConstW "B" "R" [0, 1]).r2 = none :=
  (degenerate_resample_recorded dfConstW ["B"] ["Bn"] "R" "Y" 1
      (fun _ _ => [0, 1])).2 "B" "R" [0, 1]
    (Or.inl (by
      rw [show pointsOf dfConstW "B" "R" [0, 1] = [(6, 2), (6, 2)] from rfl]
      norm_num [sxx, qSum]))

theorem le_foldr_min {l : List ℚ} {a b : ℚ} (hb : a ≤ b) (h : ∀ x ∈ l, a ≤ x) :
    a ≤ l.foldr min b := by
  induction l with
  | nil => exact hb
  | cons x t ih =>
      exact le_min (h x (List.mem_cons_self x t))
        (ih (fun y hy => h y (List.mem_cons_of_mem x hy)))

theorem foldr_min_le_base (l : List ℚ) (b : ℚ) : l.foldr min b ≤ b := by
  induction l with
  | nil => exact le_refl b
  | cons x t ih => exact le_trans (min_le_right x _) ih

theorem foldr_min_le_mem {l : List ℚ} {x b : ℚ} (hx : x ∈ l) : l.foldr min b ≤ x := by
  induction l with
  | nil => cases hx
  | cons y t ih =>
      rw [List.foldr_cons]
      cases List.mem_cons.mp hx with
      | inl he => rw [he]; exact min_le_left y _
      | inr ht => exact le_trans (min_le_right y _) (ih ht)

theorem foldr_min_subset {s l : List ℚ} {b : ℚ} (h : ∀ x ∈ s, x ∈ l) :
    l.foldr min b ≤ s.foldr min b := by
  induction s with
  | nil => exact foldr_min_le_base l b
  | cons x t ih =>
      exact le_min (foldr_min_le_mem (h x (List.mem_cons_self x t)))
        (ih (fun y hy => h y (List.mem_cons_of_mem x hy)))

/-- Positivity and the unit bound of the empirical p-value, shared by the
p-value and FDR theorems. -/
theorem empiricalP_bounds (raw norm : List (Option ℚ)) :
    0 < empiricalP raw norm ∧ empiricalP raw norm ≤ 1 := by
  unfold empiricalP
  have hc : (((finitePairs raw norm).filter (fun p => p.2 ≤ p.1)).length : ℚ)
      ≤ ((finitePairs raw norm).length : ℚ) := by
    exact_mod_cast List.length_filter_le _ _
  have hd : (0 : ℚ) < ((finitePairs raw norm).length : ℚ) + 1 := by positivity
  constructor
  · apply div_pos _ hd
    positivity
  · rw [div_le_one₀ hd]
    linarith

/-- C4: every raw p-value produced by the p-value stage equals
`(1 + #{finite iterations with normalized R² ≤ raw R²}) / (#finite + 1)`
and lies in the half-open interval `(0, 1]`. -/
theorem empirical_pvalue_spec (results : List ResultSet) (nbios : List String)
    (n_iter : ℕ) :
    ∀ (k : ℕ) (rs : ResultSet), (get_pvalues results nbios n_iter).get? k = some rs →
      rs.pvals = rs.entries.map (fun e =>
        (1 + (((finitePairs (bootR2s e.boot_raw) (bootR2s e.boot_norm)).filter
            (fun p => p.2 ≤ p.1)).length : ℚ)) /
          (((finitePairs (bootR2s e.boot_raw) (bootR2s e.boot_norm)).length : ℚ) + 1)) ∧
      ∀ p ∈ rs.pvals, 0 < p ∧ p ≤ 1 := by
  intro k rs hk
  unfold get_pvalues at hk
  rw [List.get?_map] at hk
  obtain ⟨rs0, hrs0, hmk⟩ := Option.map_eq_some'.mp hk
  subst hmk
  constructor
  · show (addPvalues rs0).pvals = (addPvalues rs0).entries.map _
    unfold addPvalues
    rfl
  · intro p hp
    have hp' : p ∈ rs0.entries.map
        (fun e => empiricalP (bootR2s e.boot_raw) (bootR2s e.boot_norm)) := hp
    obtain ⟨e, _, he⟩ := List.mem_map.mp hp'
    exact he ▸ empiricalP_bounds (bootR2s e.boot_raw) (bootR2s e.boot_norm)

theorem empirical_pvalue_spec_witness :
    0 < empiricalP (bootR2s entryW.boot_raw) (bootR2s entryW.boot_norm) ∧
    empiricalP (bootR2s entryW.boot_raw) (bootR2s entryW.boot_norm) ≤ 1 :=
  (empirical_pvalue_spec [rsW] ["Bn"] 2 0 (addPvalues rsW) rfl).2
    (empiricalP (bootR2s entryW.boot_raw) (bootR2s entryW.boot_norm))
    (List.mem_cons_self _ _)

theorem bhAdjust_ge {ps : List ℚ} {p : ℚ}
    (hall : ∀ u ∈ ps, 0 ≤ u ∧ u ≤ 1) (hp : p ∈ ps) : p ≤ bhAdjust ps p := by
  unfold bhAdjust
  apply le_foldr_min (hall p hp).2
  intro x hx
  obtain ⟨v, hv, hxv⟩ := List.mem_map.mp hx
  have hvmem : v ∈ ps := List.mem_of_mem_filter hv
  have hpv : p ≤ v := of_decide_eq_true (List.mem_filter.mp hv).2
  have hv0 : 0 ≤ v := (hall v hvmem).1
  have hc1 : 1 ≤ countLE ps v := by
    have : v ∈ ps.filter (fun u => u ≤ v) :=
      List.mem_filter.mpr ⟨hvmem, by simp⟩
    unfold countLE
    exact List.length_pos_of_mem this
  have hcm : countLE ps v ≤ ps.length := List.length_filter_le _ _
  have hcpos : (0 : ℚ) < (countLE ps v : ℚ) := by exact_mod_cast hc1
  have hvterm : v ≤ (ps.length : ℚ) * v / (countLE ps v : ℚ) := by
    rw [le_div_iff₀ hcpos]
    have : (countLE ps v : ℚ) ≤ (ps.length : ℚ) := by exact_mod_cast hcm
    nlinarith
  rw [← hxv]
  exact le_trans hpv hvterm

theorem bhAdjust_mono (ps : List ℚ) {p q : ℚ} (hpq : p ≤ q) :
    bhAdjust ps p ≤ bhAdjust ps q := by
  unfold bhAdjust
  apply foldr_min_subset
  intro x hx
  obtain ⟨v, hv, hxv⟩ := List.mem_map.mp hx
  refine List.mem_map.mpr ⟨v, ?_, hxv⟩
  have hvmem : v ∈ ps := List.mem_of_mem_filter hv
  have hqv : q ≤ v := of_decide_eq_true (List.mem_filter.mp hv).2
  exact List.mem_filter.mpr ⟨hvmem, decide_eq_true (le_trans hpq hqv)⟩

/-- C5: in every family produced by the p-value stage, the BH-adjusted
value of each raw p-value is at least the raw p-value, and adjustment
preserves the rank order of the raw p-values; the adjusted list of the stage
is exactly the family-wise BH adjustment of its raw list. -/
theorem fdr_adjust_spec (rs : ResultSet) :
    (addPvalues rs).qvals = (addPvalues rs).pvals.map (bhAdjust (addPvalues rs).pvals) ∧
    (∀ p q, p ∈ (addPvalues rs).pvals → q ∈ (addPvalues rs).pvals → p ≤ q →
      p ≤ bhAdjust (addPvalues rs).pvals p ∧
      bhAdjust (addPvalues rs).pvals p ≤ bhAdjust (addPvalues rs).pvals q) := by
  have hall : ∀ u ∈ (addPvalues rs).pvals, 0 ≤ u ∧ u ≤ 1 := by
    intro u hu
    have hu' : u ∈ rs.entries.map
        (fun e => empiricalP (bootR2s e.boot_raw) (bootR2s e.boot_norm)) := hu
    obtain ⟨e, _, he⟩ := List.mem_map.mp hu'
    have hb := empiricalP_bounds (bootR2s e.boot_raw) (bootR2s e.boot_norm)
    exact he ▸ ⟨le_of_lt hb.1, hb.2⟩
  refine ⟨rfl, ?_⟩
  intro p q hp hq hpq
  exact ⟨bhAdjust_ge hall hp, bhAdjust_mono _ hpq⟩

theorem fdr_adjust_spec_witness :
    empiricalP (bootR2s entryW.boot_raw) (bootR2s entryW.boot_norm)
        ≤ bhAdjust (addPvalues rsW).pvals
            (empiricalP (bootR2s entryW.boot_raw) (bootR2s entryW.boot_norm)) ∧
    bhAdjust (addPvalues rsW).pvals
        (empiricalP (bootR2s entryW.boot_raw) (bootR2s entryW.boot_norm))
      ≤ bhAdjust (addPvalues rsW).pvals
          (empiricalP (bootR2s entryW.boot_raw) (bootR2s entryW.boot_norm)) :=
  (fdr_adjust_spec rsW).2
    (empiricalP (bootR2s entryW.boot_raw) (bootR2s entryW.boot_norm))
    (empiricalP (bootR2s entryW.boot_raw) (bootR2s entryW.boot_norm))
    (List.mem_cons_self _ _) (List.mem_cons_self _ _) (le_refl _)

/-- C6: a completed run serializes exactly one structure — the final
result list itself, written once after the comparisons and the p-value
stage — and that list is the six result sets in the fixed order CSF →
temporal tau, CSF → cortical tau, CSF → amyloid, then plasma over the
same three outcomes. -/
theorem serialized_output_order (cfg : RunConfig) :
    (driverRun cfg).2 = [(driverRun cfg).1] ∧
    (driverRun cfg).1.map (fun r => (r.biomarkers, r.outcome))
      = [(cfg.csfBios, cfg.tauBraakI_IV), (cfg.csfBios, cfg.tauBraakV_VI),
         (cfg.csfBios, cfg.amyloidPet), (cfg.plasmaBios, cfg.tauBraakI_IV),
         (cfg.plasmaBios, cfg.tauBraakV_VI), (cfg.plasmaBios, cfg.amyloidPet)] := by
  constructor
  · rfl
  · rfl

set_option maxRecDepth 100000 in
/-- C3: the `csf_biomarkers` literal is not valid Python (duplicated
comma) while the `plasma_biomarkers` literal is; execution as shipped
therefore stops at the configuration cell — exactly the first two cells
run — and no ratio construction, model fitting, p-value computation or
serialization ever executes. -/
theorem csf_list_syntax_error :
    pyListValid csfBiomarkersSrc = false ∧
    pyListValid plasmaBiomarkersSrc = true ∧
    (modelsNotebook.takeWhile (fun c => c.parses)).length = 2 ∧
    executedEffects modelsNotebook = [] := by
  refine ⟨rfl, rfl, rfl, rfl⟩

theorem common_subset_le_max_availability_witness :
    (subsetCommon dfRatioW ["B", "R"]).nRows ≤ (subsetOutcome dfRatioW "R").nRows :=
  common_subset_le_max_availability dfRatioW ["B", "R"] "R" (by decide)

end RefprotNorm
